import Mathlib

/-!
Verification development for the zenFlow voice-assistant session core
(`src/components/VoiceAssistantOverlay.tsx`).

The embedding below translates the session controller's pure logic into
Lean: the audio-playback scheduling arithmetic, the transcript
accumulation / turn-flush state machine, the bounded log and history
buffers, the tool-call dispatcher `handleToolCall`, and the microphone
frame conversion.  Times are embedded as rationals (IEEE floats are
rationals, and the only float arithmetic a verified property depends on
— scaling by the power of two 32768 and truncation — is exact on
floats).  Machine 16-bit wrap-around is made explicit with `% 65536`.

Identifier and timestamp fields (values of `crypto.randomUUID` /
`Date.now`) are environment-supplied nondeterminism; no verified
property depends on them and they are omitted from the embedded
records.  String operations (`toLowerCase`, `trim`) are embedded with
their ASCII behaviour, which coincides with the JavaScript behaviour on
all ASCII inputs appearing in the statements below.
-/

namespace ZenFlow

/-! ## Data model (src/types.ts) -/

/-- A task, from `interface Todo` in `src/types.ts`. -/
structure Todo where
  title : String
  completed : Bool
  dueDate : Option String
  priority : Option String
  deriving DecidableEq

/-- A note, from `interface Note` in `src/types.ts`. -/
structure Note where
  title : String
  content : String
  deriving DecidableEq

/-- A calendar event, from `interface CalendarEvent` in `src/types.ts`. -/
structure CalendarEvent where
  title : String
  date : String
  startTime : String
  endTime : Option String
  location : Option String
  description : Option String
  deriving DecidableEq

/-- The application state, from `type ProductivityState` in `src/types.ts`.
Language and theme are optional strings; their value sets are irrelevant
to the embedded logic. -/
structure ProductivityState where
  todos : List Todo
  notes : List Note
  events : List CalendarEvent
  language : Option String
  theme : Option String
  deriving DecidableEq

/-! ## Audio playback scheduler (onmessage audio branch, lines 376-391)

```
nextStartTimeRef.current = Math.max(nextStartTimeRef.current, outputCtx.currentTime);
const buffer = await decodeAudioData(decode(audioData), outputCtx, 24000, 1);
...
source.start(nextStartTimeRef.current);
nextStartTimeRef.current += buffer.duration;
```

`decodeAudioData` builds a buffer of `frameCount = dataInt16.length / numChannels`
frames at 24000 Hz, so `buffer.duration = frameCount / 24000` seconds. -/

/-- One arriving response-audio chunk: the output clock reading
(`outputCtx.currentTime`) at the moment it is processed, and its mono
PCM frame count. -/
structure Chunk where
  now : ℚ
  samples : ℕ
  deriving DecidableEq

/-- Duration in seconds of the decoded buffer: `frameCount / sampleRate`
with the fixed 24000 Hz output rate passed to `decodeAudioData`. -/
def chunkDuration (c : Chunk) : ℚ := (c.samples : ℚ) / 24000

/-- Scheduling one chunk: returns the scheduled start
(`max(nextStartTime, currentTime)`, the value passed to `source.start`)
and the advanced cursor (`nextStartTime + buffer.duration`). -/
def scheduleChunk (next : ℚ) (c : Chunk) : ℚ × ℚ :=
  let start := max next c.now
  (start, start + chunkDuration c)

/-- Scheduling a whole arrival sequence of chunks, threading the
`nextStartTimeRef` cursor; yields each chunk's (scheduled start,
duration) pair in arrival order. -/
def scheduleAll (next : ℚ) : List Chunk → List (ℚ × ℚ)
  | [] => []
  | c :: cs =>
    let s := scheduleChunk next c
    (s.1, chunkDuration c) :: scheduleAll s.2 cs

/-- Session events that touch the playback cursor `nextStartTimeRef`:
an audio chunk being scheduled, the remote interruption signal
(onmessage lines 402-406, which does `nextStartTimeRef.current = 0`),
and a source's `ended` callback (which does not touch the cursor). -/
inductive SessionEvent where
  | audioChunk (c : Chunk)
  | interrupted
  | sourceEnded
  deriving DecidableEq

/-- Effect of one session event on the playback cursor. -/
def stepCursor (next : ℚ) : SessionEvent → ℚ
  | SessionEvent.audioChunk c => (scheduleChunk next c).2
  | SessionEvent.interrupted => 0
  | SessionEvent.sourceEnded => next

lemma chunkDuration_nonneg (c : Chunk) : 0 ≤ chunkDuration c := by
  unfold chunkDuration
  positivity

lemma scheduleAll_head_ge (next : ℚ) (cs : List Chunk) :
    ∀ p ∈ (scheduleAll next cs).head?, next ≤ p.1 := by
  cases cs with
  | nil => intro p hp; simp [scheduleAll] at hp
  | cons c cs =>
    intro p hp
    simp [scheduleAll, scheduleChunk] at hp
    rw [← hp]
    exact le_max_left _ _

lemma scheduleAll_dur (next : ℚ) (cs : List Chunk) :
    ∀ p ∈ scheduleAll next cs, 0 ≤ p.2 := by
  induction cs generalizing next with
  | nil => intro p hp; simp [scheduleAll] at hp
  | cons c cs ih =>
    intro p hp
    simp only [scheduleAll, List.mem_cons] at hp
    rcases hp with h | h
    · rw [h]; exact chunkDuration_nonneg c
    · exact ih _ p h

/-- **C1.** For every sequence of arriving audio chunks (each carrying
the output-clock reading at its arrival), consecutive scheduled starts
are gap-free and non-decreasing: each chunk's scheduled start is at
least the previous chunk's scheduled start plus the previous chunk's
duration, where each chunk is scheduled at `max(nextStartTime, now)`
and `nextStartTime` advances by the chunk's duration after scheduling. -/
theorem audio_schedule_gapfree (init : ℚ) (cs : List Chunk) :
    List.Chain' (fun p q : ℚ × ℚ => p.1 + p.2 ≤ q.1 ∧ p.1 ≤ q.1)
      (scheduleAll init cs) := by
  induction cs generalizing init with
  | nil => exact List.chain'_nil
  | cons c cs ih =>
    simp only [scheduleAll]
    refine List.chain'_cons'.mpr ⟨?_, ih _⟩
    intro q hq
    have hnext := scheduleAll_head_ge ((scheduleChunk init c).2) cs q hq
    have hdur : 0 ≤ chunkDuration c := chunkDuration_nonneg c
    simp only [scheduleChunk] at hnext ⊢
    constructor
    · exact hnext
    · linarith

/-- **C3 (counterexample).** The playback cursor does move backward: a
chunk of one second of audio scheduled at time 0 advances the cursor to
1, and the subsequent interruption signal resets it to 0 < 1.  This
refutes the claim that the cursor value after processing any event is
at least its value before. -/
theorem cursor_moves_backward_on_interrupt :
    stepCursor (stepCursor 0 (SessionEvent.audioChunk ⟨0, 24000⟩))
        SessionEvent.interrupted
      < stepCursor 0 (SessionEvent.audioChunk ⟨0, 24000⟩) := by
  norm_num [stepCursor, scheduleChunk, chunkDuration]

/-- **C3 (amended).** Across every session event, the playback cursor
never moves backward except on an interruption signal, which resets it
to zero; chunk scheduling and playback completions never decrease it. -/
theorem cursor_nondecreasing_except_interrupt (next : ℚ) (e : SessionEvent) :
    next ≤ stepCursor next e ∨
      (e = SessionEvent.interrupted ∧ stepCursor next e = 0) := by
  cases e with
  | audioChunk c =>
    left
    simp only [stepCursor, scheduleChunk]
    have := chunkDuration_nonneg c
    have := le_max_left next c.now
    linarith
  | interrupted => right; exact ⟨rfl, rfl⟩
  | sourceEnded => left; exact le_refl next

/-! ## String operations of the JavaScript runtime used by the component -/

/-- `String.prototype.toLowerCase`, ASCII behaviour. -/
def jsToLower (s : String) : String := String.mk (s.data.map Char.toLower)

/-- ASCII whitespace, the characters `String.prototype.trim` removes
that can occur in the statements below. -/
def isJsSpace (c : Char) : Bool :=
  c = ' ' || c = '\t' || c = '\n' || c = '\r' || c = '\x0b' || c = '\x0c'

/-- `String.prototype.trim`: drop leading and trailing whitespace. -/
def jsTrim (s : String) : String :=
  String.mk (((s.data.dropWhile isJsSpace).reverse.dropWhile isJsSpace).reverse)

/-- `String.prototype.includes`: `pat` occurs as a contiguous substring
of `s` (the empty pattern always occurs). -/
def jsIncludes (s pat : String) : Bool :=
  (List.range (s.data.length + 1)).any fun i => pat.data.isPrefixOf (s.data.drop i)

/-- The match test used by `deleteItem` and `markTodoComplete`:
`itemTitle.toLowerCase().includes(query.toLowerCase())`. -/
def titleMatches (itemTitle query : String) : Bool :=
  jsIncludes (jsToLower itemTitle) (jsToLower query)

/-! ## Bounded log and history buffers (addLog lines 60-77, addToHistory lines 79-88) -/

/-- Kind of an action-log entry. -/
inductive LogKind where
  | success
  | error
  | info
  | tool
  deriving DecidableEq

/-- An action-log entry (`interface ActionLog` minus the
environment-supplied id and timestamp).  The toast raised for
success/error entries is view state no claim concerns and is not
modelled. -/
structure LogEntry where
  message : String
  kind : LogKind
  toolName : Option String
  deriving DecidableEq

/-- `addLog`: `setActionLogs(prev => [newLog, ...prev].slice(0, 15))` —
prepend and keep the 15 newest. -/
def addLog (logs : List LogEntry) (e : LogEntry) : List LogEntry :=
  (e :: logs).take 15

/-- A committed conversation turn (`interface ConversationTurn` minus
the environment-supplied id and timestamp). -/
structure ConversationTurn where
  user : String
  ai : String
  deriving DecidableEq

/-- `addToHistory`: skip when both sides trim to empty
(`if (!user.trim() && !ai.trim()) return;`), otherwise prepend the new
turn and keep the 5 newest. -/
def addToHistory (hist : List ConversationTurn) (user ai : String) :
    List ConversationTurn :=
  if jsTrim user = "" ∧ jsTrim ai = "" then hist
  else ({ user := user, ai := ai } :: hist).take 5

/-! ## Transcript accumulation and turn flush (onmessage lines 360-374) -/

/-- The transcript-related session state: the two delta accumulators
(`userSpeech`, `aiSpeech`) and the bounded conversation history. -/
structure TranscriptState where
  userSpeech : String
  aiSpeech : String
  history : List ConversationTurn
  deriving DecidableEq

/-- Transcript events of one remote message: an input-transcription
delta, an output-transcription delta, or the turn-complete mark. -/
inductive TranscriptEvent where
  | inputDelta (t : String)
  | outputDelta (t : String)
  | turnComplete
  deriving DecidableEq

/-- Effect of one transcript event: deltas are appended to their
accumulator; turn completion flushes both accumulators through
`addToHistory` and resets both to the empty string. -/
def stepTranscript (s : TranscriptState) : TranscriptEvent → TranscriptState
  | TranscriptEvent.inputDelta t => { s with userSpeech := s.userSpeech ++ t }
  | TranscriptEvent.outputDelta t => { s with aiSpeech := s.aiSpeech ++ t }
  | TranscriptEvent.turnComplete =>
    { userSpeech := "", aiSpeech := "",
      history := addToHistory s.history s.userSpeech s.aiSpeech }

/-- The input-transcription text carried by an event (empty for the
other events). -/
def inText : TranscriptEvent → String
  | TranscriptEvent.inputDelta t => t
  | _ => ""

/-- The output-transcription text carried by an event (empty for the
other events). -/
def outText : TranscriptEvent → String
  | TranscriptEvent.outputDelta t => t
  | _ => ""

/-- Concatenation of a list of strings in order. -/
def strConcat : List String → String
  | [] => ""
  | s :: rest => s ++ strConcat rest

lemma foldl_userSpeech (evs : List TranscriptEvent) (s : TranscriptState)
    (h : ∀ e ∈ evs, e ≠ TranscriptEvent.turnComplete) :
    (evs.foldl stepTranscript s).userSpeech
      = s.userSpeech ++ strConcat (evs.map inText) := by
  induction evs generalizing s with
  | nil => simp [strConcat]
  | cons e rest ih =>
    have hrest : ∀ x ∈ rest, x ≠ TranscriptEvent.turnComplete :=
      fun x hx => h x (List.mem_cons_of_mem e hx)
    cases e with
    | inputDelta t =>
      simp only [List.foldl_cons, List.map_cons, strConcat]
      rw [ih _ hrest]
      simp [stepTranscript, inText, String.append_assoc]
    | outputDelta t =>
      simp only [List.foldl_cons, List.map_cons, strConcat]
      rw [ih _ hrest]
      simp [stepTranscript, inText]
    | turnComplete => exact absurd rfl (h _ (List.mem_cons_self _ _))

lemma foldl_aiSpeech (evs : List TranscriptEvent) (s : TranscriptState)
    (h : ∀ e ∈ evs, e ≠ TranscriptEvent.turnComplete) :
    (evs.foldl stepTranscript s).aiSpeech
      = s.aiSpeech ++ strConcat (evs.map outText) := by
  induction evs generalizing s with
  | nil => simp [strConcat]
  | cons e rest ih =>
    have hrest : ∀ x ∈ rest, x ≠ TranscriptEvent.turnComplete :=
      fun x hx => h x (List.mem_cons_of_mem e hx)
    cases e with
    | inputDelta t =>
      simp only [List.foldl_cons, List.map_cons, strConcat]
      rw [ih _ hrest]
      simp [stepTranscript, outText]
    | outputDelta t =>
      simp only [List.foldl_cons, List.map_cons, strConcat]
      rw [ih _ hrest]
      simp [stepTranscript, outText, String.append_assoc]
    | turnComplete => exact absurd rfl (h _ (List.mem_cons_self _ _))

lemma foldl_history (evs : List TranscriptEvent) (s : TranscriptState)
    (h : ∀ e ∈ evs, e ≠ TranscriptEvent.turnComplete) :
    (evs.foldl stepTranscript s).history = s.history := by
  induction evs generalizing s with
  | nil => rfl
  | cons e rest ih =>
    have hrest : ∀ x ∈ rest, x ≠ TranscriptEvent.turnComplete :=
      fun x hx => h x (List.mem_cons_of_mem e hx)
    cases e with
    | inputDelta t => simp only [List.foldl_cons]; rw [ih _ hrest]; rfl
    | outputDelta t => simp only [List.foldl_cons]; rw [ih _ hrest]; rfl
    | turnComplete => exact absurd rfl (h _ (List.mem_cons_self _ _))

/-- **C4 (counterexample).** A whitespace-only accumulated transcript is
non-empty, yet the turn-complete flush commits no turn: after the
single input delta `" "` the user accumulator is `" " ≠ ""`, but the
history is still empty after the flush, because the guard in
`addToHistory` tests the *trimmed* accumulators. -/
theorem whitespace_turn_not_committed :
    (stepTranscript ⟨"", "", []⟩ (TranscriptEvent.inputDelta " ")).userSpeech ≠ ""
    ∧ (stepTranscript (stepTranscript ⟨"", "", []⟩ (TranscriptEvent.inputDelta " "))
        TranscriptEvent.turnComplete).history = [] := by
  constructor
  · decide
  · decide

/-- **C4 (amended).** For every sequence of input- and
output-transcription deltas followed by a turn-complete event, the
flush commits exactly one ConversationTurn whose user and assistant
texts equal the concatenation of the deltas accumulated since the
previous flush, provided either accumulated text contains a
non-whitespace character (no turn is committed when both trim to
empty), and both accumulators are empty immediately after the flush. -/
theorem turn_flush_commits_accumulated (h0 : List ConversationTurn)
    (evs : List TranscriptEvent)
    (hev : ∀ e ∈ evs, e ≠ TranscriptEvent.turnComplete) :
    (stepTranscript (evs.foldl stepTranscript ⟨"", "", h0⟩)
        TranscriptEvent.turnComplete).userSpeech = ""
    ∧ (stepTranscript (evs.foldl stepTranscript ⟨"", "", h0⟩)
        TranscriptEvent.turnComplete).aiSpeech = ""
    ∧ (¬(jsTrim (strConcat (evs.map inText)) = ""
          ∧ jsTrim (strConcat (evs.map outText)) = "") →
        (stepTranscript (evs.foldl stepTranscript ⟨"", "", h0⟩)
            TranscriptEvent.turnComplete).history
          = ({ user := strConcat (evs.map inText),
               ai := strConcat (evs.map outText) } :: h0).take 5)
    ∧ ((jsTrim (strConcat (evs.map inText)) = ""
          ∧ jsTrim (strConcat (evs.map outText)) = "") →
        (stepTranscript (evs.foldl stepTranscript ⟨"", "", h0⟩)
            TranscriptEvent.turnComplete).history = h0) := by
  have hu := foldl_userSpeech evs ⟨"", "", h0⟩ hev
  have ha := foldl_aiSpeech evs ⟨"", "", h0⟩ hev
  have hh := foldl_history evs ⟨"", "", h0⟩ hev
  simp only [String.empty_append] at hu ha
  refine ⟨rfl, rfl, ?_, ?_⟩
  · intro hne
    simp only [stepTranscript, addToHistory, hu, ha, hh]
    rw [if_neg hne]
  · intro hem
    simp only [stepTranscript, addToHistory, hu, ha, hh]
    rw [if_pos hem]

/-- **C4 witness** for `turn_flush_commits_accumulated` at a concrete
delta sequence. -/
theorem turn_flush_commits_accumulated_witness :
    (∀ e ∈ [TranscriptEvent.inputDelta "add ", TranscriptEvent.outputDelta "Done.",
            TranscriptEvent.inputDelta "milk"],
        e ≠ TranscriptEvent.turnComplete)
    ∧ (stepTranscript
          ([TranscriptEvent.inputDelta "add ", TranscriptEvent.outputDelta "Done.",
            TranscriptEvent.inputDelta "milk"].foldl stepTranscript ⟨"", "", []⟩)
          TranscriptEvent.turnComplete).userSpeech = "" := by
  refine ⟨by decide, ?_⟩
  exact (turn_flush_commits_accumulated []
    [TranscriptEvent.inputDelta "add ", TranscriptEvent.outputDelta "Done.",
      TranscriptEvent.inputDelta "milk"] (by decide)).1

/-! ## Boundedness and eviction order of the two buffers -/

lemma take_append_take {α : Type} (A l : List α) (k : ℕ) :
    (A ++ l.take k).take k = (A ++ l).take k := by
  rw [List.take_append_eq_append_take, List.take_append_eq_append_take,
    List.take_take, Nat.min_eq_left (Nat.sub_le k A.length)]

lemma foldl_push_take {α β : Type} (f : α → β) (k : ℕ) :
    ∀ (xs : List α) (acc : List β), acc.length ≤ k →
      xs.foldl (fun l x => (f x :: l).take k) acc
        = ((xs.reverse.map f) ++ acc).take k := by
  intro xs
  induction xs with
  | nil =>
    intro acc hacc
    simp [List.take_of_length_le hacc]
  | cons x xs ih =>
    intro acc hacc
    have hlen : ((f x :: acc).take k).length ≤ k :=
      List.length_take_le k (f x :: acc)
    rw [List.foldl_cons, ih _ hlen, take_append_take]
    simp [List.append_assoc]

/-- The commit test of `addToHistory` as a filter predicate. -/
def committed (p : String × String) : Bool :=
  decide (¬(jsTrim p.1 = "" ∧ jsTrim p.2 = ""))

lemma foldl_addToHistory_filter :
    ∀ (turns : List (String × String)) (acc : List ConversationTurn),
      turns.foldl (fun h p => addToHistory h p.1 p.2) acc
        = (turns.filter committed).foldl
            (fun h p => (ConversationTurn.mk p.1 p.2 :: h).take 5) acc := by
  intro turns
  induction turns with
  | nil => intro acc; rfl
  | cons p rest ih =>
    intro acc
    by_cases hc : jsTrim p.1 = "" ∧ jsTrim p.2 = ""
    · rw [List.foldl_cons, List.filter_cons_of_neg (by simp [committed, hc])]
      simp only [addToHistory, if_pos hc]
      exact ih acc
    · rw [List.foldl_cons, List.filter_cons_of_pos (by simp [committed, hc])]
      simp only [addToHistory, if_neg hc, List.foldl_cons]
      exact ih _

/-- **C7.** For every sequence of log appends and turn commits, the
action log never holds more than 15 entries and the conversation
history never holds more than 5 entries; each buffer equals the
newest-first sequence of its (for history: committed) entries cut at
its bound, so the most recent entries are retained and the oldest
evicted. -/
theorem buffers_bounded (msgs : List LogEntry) (turns : List (String × String)) :
    (msgs.foldl addLog []).length ≤ 15
    ∧ (turns.foldl (fun h p => addToHistory h p.1 p.2) []).length ≤ 5
    ∧ msgs.foldl addLog [] = msgs.reverse.take 15
    ∧ turns.foldl (fun h p => addToHistory h p.1 p.2) []
        = ((turns.filter committed).reverse.map
            fun p => ConversationTurn.mk p.1 p.2).take 5 := by
  have hlog : msgs.foldl addLog [] = msgs.reverse.take 15 := by
    have := foldl_push_take (id : LogEntry → LogEntry) 15 msgs []
      (by simp)
    simpa [addLog] using this
  have hhist : turns.foldl (fun h p => addToHistory h p.1 p.2) []
      = ((turns.filter committed).reverse.map
          fun p => ConversationTurn.mk p.1 p.2).take 5 := by
    rw [foldl_addToHistory_filter]
    have := foldl_push_take (fun p : String × String => ConversationTurn.mk p.1 p.2)
      5 (turns.filter committed) [] (by simp)
    simpa using this
  refine ⟨?_, ?_, hlog, hhist⟩
  · rw [hlog]; exact List.length_take_le 15 _
  · rw [hhist]; exact List.length_take_le 5 _

/-! ## Tool dispatcher (handleToolCall, lines 224-325)

The dispatcher reads the shared store through `updateState(prev => ...)`
functional updates; per the collaborator contract they are applied
atomically over the latest value, embedded here as immediate functional
application.  `JSON.stringify` is kept abstract as a `stringify`
parameter: no verified property depends on the serialized snapshot.
The `try`/`catch` wrapper can only fire when a dereferenced required
argument is absent; the engine-specific TypeError message is modelled
by the constant `typeErrMsg`. -/

/-- The duck-typed argument record of a tool call; each field is absent
(`none`) when the remote omitted it. -/
structure ToolArgs where
  theme : Option String
  language : Option String
  title : Option String
  content : Option String
  dueDate : Option String
  priority : Option String
  type : Option String
  date : Option String
  startTime : Option String
  location : Option String
  description : Option String
  deriving DecidableEq

/-- The all-absent argument record. -/
def noArgs : ToolArgs :=
  ⟨none, none, none, none, none, none, none, none, none, none, none⟩

/-- A tool-call request `{id, name, args}` received from the remote
service. -/
structure ToolCallReq where
  id : String
  name : String
  args : ToolArgs
  deriving DecidableEq

/-- The state the dispatcher touches: the application store and the
action log. -/
structure DispState where
  app : ProductivityState
  logs : List LogEntry
  deriving DecidableEq

/-- `addLog` as it acts within the dispatcher state. -/
def addLogS (σ : DispState) (message : String) (kind : LogKind)
    (toolName : Option String) : DispState :=
  { σ with logs := addLog σ.logs ⟨message, kind, toolName⟩ }

/-- JS template rendering of a possibly-absent string value
(`undefined` prints as the string `undefined`). -/
def jsStr : Option String → String
  | some s => s
  | none => "undefined"

/-- Engine-specific message of the TypeError thrown when an absent
required argument is dereferenced; its exact text is environment
behaviour and is modelled by this constant. -/
def typeErrMsg : String := "TypeError"

/-- The caught-exception path of `handleToolCall`:
`addLog` an error entry and return the `Error:`-prefixed message. -/
def catchResult (σ : DispState) : String × DispState :=
  ("Error: " ++ typeErrMsg, addLogS σ ("Error: " ++ typeErrMsg) LogKind.error none)

/-- `handleToolCall`: logs the invocation as a `tool` entry, then
dispatches on the request name, mutating the store and returning the
textual result sent back to the remote service.  An unrecognized name
falls through every branch to the final `return 'OK'`. -/
def handleToolCall (stringify : ProductivityState → String) (σ : DispState)
    (fc : ToolCallReq) : String × DispState :=
  let σ1 := addLogS σ ("Agent: Executing " ++ fc.name) LogKind.tool (some fc.name)
  let args := fc.args
  if fc.name = "getWorkspaceData" then
    (stringify σ1.app, σ1)
  else if fc.name = "setTheme" then
    match args.theme with
    | some th =>
      if th = "light" ∨ th = "dark" then
        let σ2 := { σ1 with app := { σ1.app with theme := some th } }
        ("OK: Switched to " ++ th ++ " mode.",
          addLogS σ2 ("Theme Updated: " ++ th ++ " mode") LogKind.success none)
      else ("Error: Invalid theme specified.", σ1)
    | none => ("Error: Invalid theme specified.", σ1)
  else if fc.name = "setLanguage" then
    let σ2 := { σ1 with app := { σ1.app with language := args.language } }
    ("OK: Language changed to " ++ jsStr args.language ++ ".",
      addLogS σ2 ("Language Changed: " ++ jsStr args.language) LogKind.success none)
  else if fc.name = "addTodo" then
    let newTodo : Todo := ⟨jsStr args.title, false, args.dueDate, args.priority⟩
    let σ2 := { σ1 with app := { σ1.app with todos := newTodo :: σ1.app.todos } }
    ("OK: Added task \"" ++ jsStr args.title ++ "\".",
      addLogS σ2 ("Task Added: \"" ++ jsStr args.title ++ "\"") LogKind.success none)
  else if fc.name = "addNote" then
    let newNote : Note := ⟨jsStr args.title, jsStr args.content⟩
    let σ2 := { σ1 with app := { σ1.app with notes := newNote :: σ1.app.notes } }
    ("OK: Saved note \"" ++ jsStr args.title ++ "\".",
      addLogS σ2 ("Note Saved: \"" ++ jsStr args.title ++ "\"") LogKind.success none)
  else if fc.name = "addEvent" then
    let newEvent : CalendarEvent :=
      ⟨jsStr args.title, jsStr args.date, jsStr args.startTime,
        none, args.location, args.description⟩
    let σ2 := { σ1 with app := { σ1.app with events := σ1.app.events ++ [newEvent] } }
    ("OK: Scheduled \"" ++ jsStr args.title ++ "\" for " ++ jsStr args.date
        ++ " at " ++ jsStr args.startTime ++ ".",
      addLogS σ2 ("Event Scheduled: \"" ++ jsStr args.title ++ "\"") LogKind.success none)
  else if fc.name = "deleteItem" then
    match args.title with
    | some title =>
      if args.type = some "todo" then
        let filtered := σ1.app.todos.filter fun t => !(titleMatches t.title title)
        let σ2 := { σ1 with app := { σ1.app with todos := filtered } }
        if filtered.length < σ1.app.todos.length then
          ("OK: Removed todo \"" ++ title ++ "\".",
            addLogS σ2 "Removed: todo" LogKind.success none)
        else ("Error: Item \"" ++ title ++ "\" not found.", σ2)
      else if args.type = some "note" then
        let filtered := σ1.app.notes.filter fun n => !(titleMatches n.title title)
        let σ2 := { σ1 with app := { σ1.app with notes := filtered } }
        if filtered.length < σ1.app.notes.length then
          ("OK: Removed note \"" ++ title ++ "\".",
            addLogS σ2 "Removed: note" LogKind.success none)
        else ("Error: Item \"" ++ title ++ "\" not found.", σ2)
      else if args.type = some "event" then
        let filtered := σ1.app.events.filter fun e => !(titleMatches e.title title)
        let σ2 := { σ1 with app := { σ1.app with events := filtered } }
        if filtered.length < σ1.app.events.length then
          ("OK: Removed event \"" ++ title ++ "\".",
            addLogS σ2 "Removed: event" LogKind.success none)
        else ("Error: Item \"" ++ title ++ "\" not found.", σ2)
      else ("Error: Item \"" ++ title ++ "\" not found.", σ1)
    | none =>
      -- title absent: a filter callback that runs dereferences it and
      -- throws; with no items of the requested type no callback runs
      -- and the not-found branch renders the title as "undefined"
      if fc.args.type = some "todo" then
        if σ1.app.todos.isEmpty then ("Error: Item \"undefined\" not found.", σ1)
        else catchResult σ1
      else if fc.args.type = some "note" then
        if σ1.app.notes.isEmpty then ("Error: Item \"undefined\" not found.", σ1)
        else catchResult σ1
      else if fc.args.type = some "event" then
        if σ1.app.events.isEmpty then ("Error: Item \"undefined\" not found.", σ1)
        else catchResult σ1
      else ("Error: Item \"undefined\" not found.", σ1)
  else if fc.name = "markTodoComplete" then
    match args.title with
    | some title =>
      let newTodos := σ1.app.todos.map fun t =>
        if titleMatches t.title title then { t with completed := true } else t
      let σ2 := { σ1 with app := { σ1.app with todos := newTodos } }
      if σ1.app.todos.any fun t => titleMatches t.title title then
        ("OK: Marked \"" ++ title ++ "\" as done.",
          addLogS σ2 ("Completed: \"" ++ title ++ "\"") LogKind.success none)
      else ("Error: Task \"" ++ title ++ "\" not found.", σ2)
    | none =>
      if σ1.app.todos.isEmpty then ("Error: Task \"undefined\" not found.", σ1)
      else catchResult σ1
  else ("OK", σ1)

/-- **C8.** For every setTheme call: a `light` or `dark` theme argument
updates the state's theme field and returns the `OK:`-prefixed
confirmation; any other argument value — a different string or an
absent argument — leaves the application state unchanged and returns
exactly `Error: Invalid theme specified.` -/
theorem setTheme_updates_or_rejects (stringify : ProductivityState → String)
    (σ : DispState) (idv : String) (args : ToolArgs) :
    (∀ th, args.theme = some th → (th = "light" ∨ th = "dark") →
      (handleToolCall stringify σ ⟨idv, "setTheme", args⟩).2.app
          = { σ.app with theme := some th }
      ∧ (handleToolCall stringify σ ⟨idv, "setTheme", args⟩).1
          = "OK: Switched to " ++ th ++ " mode.")
    ∧ (∀ th, args.theme = some th → ¬(th = "light" ∨ th = "dark") →
      (handleToolCall stringify σ ⟨idv, "setTheme", args⟩).2.app = σ.app
      ∧ (handleToolCall stringify σ ⟨idv, "setTheme", args⟩).1
          = "Error: Invalid theme specified.")
    ∧ (args.theme = none →
      (handleToolCall stringify σ ⟨idv, "setTheme", args⟩).2.app = σ.app
      ∧ (handleToolCall stringify σ ⟨idv, "setTheme", args⟩).1
          = "Error: Invalid theme specified.") := by
  refine ⟨?_, ?_, ?_⟩
  · intro th hth hv
    simp [handleToolCall, hth, if_pos hv, addLogS]
  · intro th hth hv
    simp [handleToolCall, hth, if_neg hv, addLogS]
  · intro hth
    simp [handleToolCall, hth, addLogS]

/-- **C5.** For every deleteItem call with type in {todo,note,event}
and every markTodoComplete call, against any application state: exactly
those items of the given type whose title contains the query as a
case-insensitive substring are affected — removed, respectively marked
complete — all matches in one call, and no non-matching item (and no
item of another type) is changed. -/
theorem delete_complete_affect_exact_matches (stringify : ProductivityState → String)
    (σ : DispState) (idv : String) (q : String) (args : ToolArgs) :
    (args.type = some "todo" → args.title = some q →
      (∀ t : Todo,
          t ∈ (handleToolCall stringify σ ⟨idv, "deleteItem", args⟩).2.app.todos
          ↔ t ∈ σ.app.todos ∧ titleMatches t.title q = false)
      ∧ (handleToolCall stringify σ ⟨idv, "deleteItem", args⟩).2.app.notes
          = σ.app.notes
      ∧ (handleToolCall stringify σ ⟨idv, "deleteItem", args⟩).2.app.events
          = σ.app.events)
    ∧ (args.type = some "note" → args.title = some q →
      (∀ n : Note,
          n ∈ (handleToolCall stringify σ ⟨idv, "deleteItem", args⟩).2.app.notes
          ↔ n ∈ σ.app.notes ∧ titleMatches n.title q = false)
      ∧ (handleToolCall stringify σ ⟨idv, "deleteItem", args⟩).2.app.todos
          = σ.app.todos
      ∧ (handleToolCall stringify σ ⟨idv, "deleteItem", args⟩).2.app.events
          = σ.app.events)
    ∧ (args.type = some "event" → args.title = some q →
      (∀ e : CalendarEvent,
          e ∈ (handleToolCall stringify σ ⟨idv, "deleteItem", args⟩).2.app.events
          ↔ e ∈ σ.app.events ∧ titleMatches e.title q = false)
      ∧ (handleToolCall stringify σ ⟨idv, "deleteItem", args⟩).2.app.todos
          = σ.app.todos
      ∧ (handleToolCall stringify σ ⟨idv, "deleteItem", args⟩).2.app.notes
          = σ.app.notes)
    ∧ (args.title = some q →
      List.Forall₂ (fun t0 t1 : Todo =>
          (titleMatches t0.title q = true → t1 = { t0 with completed := true })
          ∧ (titleMatches t0.title q = false → t1 = t0))
        σ.app.todos
        (handleToolCall stringify σ ⟨idv, "markTodoComplete", args⟩).2.app.todos
      ∧ (handleToolCall stringify σ ⟨idv, "markTodoComplete", args⟩).2.app.notes
          = σ.app.notes
      ∧ (handleToolCall stringify σ ⟨idv, "markTodoComplete", args⟩).2.app.events
          = σ.app.events) := by
  refine ⟨?_, ?_, ?_, ?_⟩
  · intro hty hti
    have happ : (handleToolCall stringify σ ⟨idv, "deleteItem", args⟩).2.app
        = { σ.app with todos := σ.app.todos.filter fun t => !(titleMatches t.title q) } := by
      simp [handleToolCall, hti, hty, addLogS, apply_ite]
    rw [happ]
    refine ⟨?_, rfl, rfl⟩
    intro t
    simp [List.mem_filter]
  · intro hty hti
    have happ : (handleToolCall stringify σ ⟨idv, "deleteItem", args⟩).2.app
        = { σ.app with notes := σ.app.notes.filter fun n => !(titleMatches n.title q) } := by
      simp [handleToolCall, hti, hty, addLogS, apply_ite]
    rw [happ]
    refine ⟨?_, rfl, rfl⟩
    intro n
    simp [List.mem_filter]
  · intro hty hti
    have happ : (handleToolCall stringify σ ⟨idv, "deleteItem", args⟩).2.app
        = { σ.app with events := σ.app.events.filter fun e => !(titleMatches e.title q) } := by
      simp [handleToolCall, hti, hty, addLogS, apply_ite]
    rw [happ]
    refine ⟨?_, rfl, rfl⟩
    intro e
    simp [List.mem_filter]
  · intro hti
    have happ : (handleToolCall stringify σ ⟨idv, "markTodoComplete", args⟩).2.app
        = { σ.app with todos := σ.app.todos.map fun t =>
            if titleMatches t.title q then { t with completed := true } else t } := by
      simp [handleToolCall, hti, addLogS, apply_ite]
    rw [happ]
    refine ⟨?_, rfl, rfl⟩
    rw [List.forall₂_map_right_iff, List.forall₂_same]
    intro t _
    by_cases hm : titleMatches t.title q = true
    · simp [hm]
    · simp only [Bool.not_eq_true] at hm
      simp [hm]

/-- An empty dispatcher state, for the concrete instances below. -/
def emptyDisp : DispState := ⟨⟨[], [], [], none, none⟩, []⟩

/-- A dispatcher state holding a few items, for the concrete instances
below. -/
def sampleDisp : DispState :=
  ⟨⟨[⟨"Buy milk", false, none, none⟩, ⟨"Walk the dog", false, none, none⟩],
    [⟨"Milk prices", "went up"⟩],
    [⟨"Team meeting", "2026-10-12", "10:00", none, none, none⟩],
    none, none⟩, []⟩

/-- A dispatcher state holding one todo that does not mention milk. -/
def noMilkDisp : DispState :=
  ⟨⟨[⟨"Walk the dog", false, none, none⟩], [], [], none, none⟩, []⟩

/-- **C8 witness**: `setTheme_updates_or_rejects` at the theme value
`purple` against the empty state. -/
theorem setTheme_updates_or_rejects_witness :
    (({ noArgs with theme := some "purple" } : ToolArgs).theme = some "purple"
        ∧ ¬("purple" = "light" ∨ "purple" = "dark"))
    ∧ (handleToolCall (fun _ => "") emptyDisp
          ⟨"c", "setTheme", { noArgs with theme := some "purple" }⟩).2.app
        = emptyDisp.app
    ∧ (handleToolCall (fun _ => "") emptyDisp
          ⟨"c", "setTheme", { noArgs with theme := some "purple" }⟩).1
        = "Error: Invalid theme specified." := by
  refine ⟨⟨rfl, by decide⟩, ?_, ?_⟩
  · exact ((setTheme_updates_or_rejects (fun _ => "") emptyDisp "c"
      { noArgs with theme := some "purple" }).2.1 "purple" rfl (by decide)).1
  · exact ((setTheme_updates_or_rejects (fun _ => "") emptyDisp "c"
      { noArgs with theme := some "purple" }).2.1 "purple" rfl (by decide)).2

/-- **C5 witness**: `delete_complete_affect_exact_matches` at the query
`MILK` (case-insensitive) against the sample state. -/
theorem delete_complete_affect_exact_matches_witness :
    (({ noArgs with type := some "todo", title := some "MILK" } : ToolArgs).type
        = some "todo")
    ∧ ∀ t : Todo,
        t ∈ (handleToolCall (fun _ => "") sampleDisp
              ⟨"c", "deleteItem",
                { noArgs with type := some "todo", title := some "MILK" }⟩).2.app.todos
        ↔ t ∈ sampleDisp.app.todos ∧ titleMatches t.title "MILK" = false := by
  refine ⟨rfl, ?_⟩
  exact ((delete_complete_affect_exact_matches (fun _ => "") sampleDisp "c" "MILK"
    { noArgs with type := some "todo", title := some "MILK" }).1 rfl rfl).1

/-- **C6.** For every deleteItem call with type in {todo,note,event}
and every markTodoComplete call in which no item of the requested type
has a title containing the query as a case-insensitive substring, the
dispatcher returns the `Error:`-prefixed not-found string naming the
query, and the application state is unchanged — nothing removed,
nothing marked. -/
theorem nomatch_error_state_unchanged (stringify : ProductivityState → String)
    (σ : DispState) (idv : String) (q : String) (args : ToolArgs) :
    (args.type = some "todo" → args.title = some q →
      (∀ t ∈ σ.app.todos, titleMatches t.title q = false) →
      (handleToolCall stringify σ ⟨idv, "deleteItem", args⟩).1
          = "Error: Item \"" ++ q ++ "\" not found."
      ∧ (handleToolCall stringify σ ⟨idv, "deleteItem", args⟩).2.app = σ.app)
    ∧ (args.type = some "note" → args.title = some q →
      (∀ n ∈ σ.app.notes, titleMatches n.title q = false) →
      (handleToolCall stringify σ ⟨idv, "deleteItem", args⟩).1
          = "Error: Item \"" ++ q ++ "\" not found."
      ∧ (handleToolCall stringify σ ⟨idv, "deleteItem", args⟩).2.app = σ.app)
    ∧ (args.type = some "event" → args.title = some q →
      (∀ e ∈ σ.app.events, titleMatches e.title q = false) →
      (handleToolCall stringify σ ⟨idv, "deleteItem", args⟩).1
          = "Error: Item \"" ++ q ++ "\" not found."
      ∧ (handleToolCall stringify σ ⟨idv, "deleteItem", args⟩).2.app = σ.app)
    ∧ (args.title = some q →
      (∀ t ∈ σ.app.todos, titleMatches t.title q = false) →
      (handleToolCall stringify σ ⟨idv, "markTodoComplete", args⟩).1
          = "Error: Task \"" ++ q ++ "\" not found."
      ∧ (handleToolCall stringify σ ⟨idv, "markTodoComplete", args⟩).2.app = σ.app) := by
  refine ⟨?_, ?_, ?_, ?_⟩
  · intro hty hti hno
    have hfil : σ.app.todos.filter (fun t => !(titleMatches t.title q)) = σ.app.todos :=
      List.filter_eq_self.mpr (by intro a ha; simp [hno a ha])
    simp [handleToolCall, hti, hty, addLogS, hfil]
  · intro hty hti hno
    have hfil : σ.app.notes.filter (fun n => !(titleMatches n.title q)) = σ.app.notes :=
      List.filter_eq_self.mpr (by intro a ha; simp [hno a ha])
    simp [handleToolCall, hti, hty, addLogS, hfil]
  · intro hty hti hno
    have hfil : σ.app.events.filter (fun e => !(titleMatches e.title q)) = σ.app.events :=
      List.filter_eq_self.mpr (by intro a ha; simp [hno a ha])
    simp [handleToolCall, hti, hty, addLogS, hfil]
  · intro hti hno
    have hmap : (σ.app.todos.map fun t =>
        if titleMatches t.title q then { t with completed := true } else t)
          = σ.app.todos := by
      have := List.map_congr_left (l := σ.app.todos)
        (f := fun t : Todo =>
          if titleMatches t.title q then { t with completed := true } else t)
        (g := id) (by intro a ha; simp [hno a ha])
      simpa using this
    have hany : (σ.app.todos.any fun t => titleMatches t.title q) = false := by
      simp only [List.any_eq_false]
      intro t ht
      simp [hno t ht]
    simp [handleToolCall, hti, addLogS, hmap, hany]

/-- **C6 witness**: `nomatch_error_state_unchanged` for `deleteItem`
with title `milk` against a state with no milk-related item — the
result is exactly the string of Scenario B. -/
theorem nomatch_error_state_unchanged_witness :
    (∀ t ∈ noMilkDisp.app.todos, titleMatches t.title "milk" = false)
    ∧ (handleToolCall (fun _ => "") noMilkDisp
        ⟨"c", "deleteItem",
          { noArgs with type := some "todo", title := some "milk" }⟩).1
        = "Error: Item \"milk\" not found."
    ∧ (handleToolCall (fun _ => "") noMilkDisp
        ⟨"c", "deleteItem",
          { noArgs with type := some "todo", title := some "milk" }⟩).2.app
        = noMilkDisp.app := by
  refine ⟨by decide, ?_, ?_⟩
  · exact ((nomatch_error_state_unchanged (fun _ => "") noMilkDisp "c" "milk"
      { noArgs with type := some "todo", title := some "milk" }).1 rfl rfl (by decide)).1
  · exact ((nomatch_error_state_unchanged (fun _ => "") noMilkDisp "c" "milk"
      { noArgs with type := some "todo", title := some "milk" }).1 rfl rfl (by decide)).2

/-- **C10.** For every tool-call request whose name is not one of the
eight declared tools, the dispatcher leaves the application state
unchanged, appends only the initial `tool` invocation entry — no
success or error entry — and returns the string `OK` rather than an
`Error:`-prefixed result. -/
theorem unknown_tool_returns_ok (stringify : ProductivityState → String)
    (σ : DispState) (fc : ToolCallReq)
    (h : fc.name ∉ (["getWorkspaceData", "setTheme", "setLanguage", "addTodo",
        "addNote", "addEvent", "deleteItem", "markTodoComplete"] : List String)) :
    (handleToolCall stringify σ fc).1 = "OK"
    ∧ (handleToolCall stringify σ fc).2.app = σ.app
    ∧ (handleToolCall stringify σ fc).2.logs
        = addLog σ.logs
            ⟨"Agent: Executing " ++ fc.name, LogKind.tool, some fc.name⟩ := by
  simp only [List.mem_cons, List.mem_singleton, not_or, List.not_mem_nil] at h
  obtain ⟨h1, h2, h3, h4, h5, h6, h7, h8⟩ := h
  simp [handleToolCall, h1, h2, h3, h4, h5, h6, h7, h8, addLogS]

/-- **C10 witness**: `unknown_tool_returns_ok` at the unknown name
`ping` against the empty state. -/
theorem unknown_tool_returns_ok_witness :
    ("ping" ∉ (["getWorkspaceData", "setTheme", "setLanguage", "addTodo",
        "addNote", "addEvent", "deleteItem", "markTodoComplete"] : List String))
    ∧ (handleToolCall (fun _ => "") emptyDisp ⟨"c", "ping", noArgs⟩).1 = "OK" := by
  refine ⟨by decide, ?_⟩
  exact (unknown_tool_returns_ok (fun _ => "") emptyDisp ⟨"c", "ping", noArgs⟩
    (by decide)).1

/-! ## Tool-call batch processing (onmessage lines 393-400)

```
if (message.toolCall) {
  for (const fc of message.toolCall.functionCalls) {
    const result = handleToolCall(fc);
    sessionPromise.then(session => session.sendToolResponse({
      functionResponses: { id: fc.id, name: fc.name, response: { result } }
    }));
  }
}
```

`handleToolCall` is synchronous, so the dispatches run back to back
inside the loop.  The response send, however, is a `.then` continuation
on `sessionPromise`; `onmessage` only fires on an established session,
so the promise is already resolved and each continuation is enqueued as
a microtask, which by the JavaScript event-loop semantics runs only
after the currently executing synchronous code — the whole loop —
returns, in enqueue order.  The event trace below records this. -/

/-- Observable events of one batch: the synchronous dispatch of request
`i`, and the send of request `i`'s response. -/
inductive BatchEv where
  | dispatch (i : ℕ)
  | send (i : ℕ)
  deriving DecidableEq, BEq

/-- A tool response `{id, name, response: {result}}` sent back to the
remote service. -/
structure ToolResponse where
  id : String
  name : String
  result : String
  deriving DecidableEq

/-- Result of the synchronous loop: final dispatcher state, the trace
of events already performed, the pending send microtasks in enqueue
order, and the response payloads in request order. -/
structure LoopOut where
  sigma : DispState
  trace : List BatchEv
  pending : List BatchEv
  resps : List ToolResponse

/-- The `for (const fc of ...)` loop body: dispatch request `idx`
synchronously and enqueue its send continuation. -/
def toolCallLoop (stringify : ProductivityState → String) (σ : DispState)
    (idx : ℕ) : List ToolCallReq → LoopOut
  | [] => ⟨σ, [], [], []⟩
  | r :: rs =>
    let d := handleToolCall stringify σ r
    let o := toolCallLoop stringify d.2 (idx + 1) rs
    ⟨o.sigma, BatchEv.dispatch idx :: o.trace, BatchEv.send idx :: o.pending,
      ⟨r.id, r.name, d.1⟩ :: o.resps⟩

/-- Result of processing one whole batch: final state, full event
trace, responses in send order. -/
structure BatchOut where
  sigma : DispState
  trace : List BatchEv
  resps : List ToolResponse

/-- Processing of one toolCall message batch: the synchronous loop runs
to completion, then the queued send microtasks run in enqueue order. -/
def processToolCalls (stringify : ProductivityState → String) (σ : DispState)
    (reqs : List ToolCallReq) : BatchOut :=
  let o := toolCallLoop stringify σ 0 reqs
  ⟨o.sigma, o.trace ++ o.pending, o.resps⟩

/-- The dispatcher state after a sequence of requests applied in
order. -/
def stateAfter (stringify : ProductivityState → String) (σ : DispState)
    (reqs : List ToolCallReq) : DispState :=
  reqs.foldl (fun s r => (handleToolCall stringify s r).2) σ

lemma toolCallLoop_spec (stringify : ProductivityState → String) :
    ∀ (reqs : List ToolCallReq) (σ : DispState) (idx : ℕ),
      (toolCallLoop stringify σ idx reqs).trace
          = (List.range' idx reqs.length).map BatchEv.dispatch
      ∧ (toolCallLoop stringify σ idx reqs).pending
          = (List.range' idx reqs.length).map BatchEv.send
      ∧ (toolCallLoop stringify σ idx reqs).resps.map ToolResponse.id
          = reqs.map ToolCallReq.id
      ∧ (toolCallLoop stringify σ idx reqs).resps.map ToolResponse.name
          = reqs.map ToolCallReq.name
      ∧ (toolCallLoop stringify σ idx reqs).sigma = stateAfter stringify σ reqs := by
  intro reqs
  induction reqs with
  | nil => intro σ idx; exact ⟨rfl, rfl, rfl, rfl, rfl⟩
  | cons r rs ih =>
    intro σ idx
    obtain ⟨h1, h2, h3, h4, h5⟩ := ih (handleToolCall stringify σ r).2 (idx + 1)
    refine ⟨?_, ?_, ?_, ?_, ?_⟩ <;>
      simp [toolCallLoop, h1, h2, h3, h4, h5, stateAfter, List.range'_succ]

/-- A request with an unrecognized name, used in the concrete batch
below; its dispatch returns `OK` and touches only the log. -/
def pingReq (i : String) : ToolCallReq := ⟨i, "ping", noArgs⟩

/-- **C2 (counterexample).** In a batch of two requests, the trace is
dispatch 0, dispatch 1, send 0, send 1: the first request's response is
*not* sent before the second request is dispatched — the send
microtasks all run after the synchronous loop.  The claim that each
request receives its response before the next request is processed
fails at this two-request batch. -/
theorem response_after_next_dispatch_cex :
    (processToolCalls (fun _ => "") emptyDisp
        [pingReq "call-0", pingReq "call-1"]).trace
      = [BatchEv.dispatch 0, BatchEv.dispatch 1, BatchEv.send 0, BatchEv.send 1]
    ∧ ¬((processToolCalls (fun _ => "") emptyDisp
          [pingReq "call-0", pingReq "call-1"]).trace.indexOf (BatchEv.send 0)
        < (processToolCalls (fun _ => "") emptyDisp
          [pingReq "call-0", pingReq "call-1"]).trace.indexOf (BatchEv.dispatch 1)) := by
  refine ⟨by decide, by decide⟩

/-- **C2 (amended).** For every batch of tool-call requests arriving in
one remote message, the requests are dispatched sequentially in arrival
order, the state effects composing in that order, and each request
receives exactly one response (its result, under its id and name, in
request order); the responses are all sent after the batch's dispatches
have completed, in request order, each having been enqueued before the
next dispatch ran. -/
theorem toolcall_batch_sequential (stringify : ProductivityState → String)
    (σ : DispState) (reqs : List ToolCallReq) :
    (processToolCalls stringify σ reqs).trace
        = ((List.range reqs.length).map BatchEv.dispatch)
          ++ ((List.range reqs.length).map BatchEv.send)
    ∧ (processToolCalls stringify σ reqs).resps.map ToolResponse.id
        = reqs.map ToolCallReq.id
    ∧ (processToolCalls stringify σ reqs).resps.map ToolResponse.name
        = reqs.map ToolCallReq.name
    ∧ (processToolCalls stringify σ reqs).sigma = stateAfter stringify σ reqs := by
  obtain ⟨h1, h2, h3, h4, h5⟩ := toolCallLoop_spec stringify reqs σ 0
  refine ⟨?_, ?_, ?_, ?_⟩ <;>
    simp [processToolCalls, h1, h2, h3, h4, h5, List.range_eq_range']

/-! ## Microphone capture frame (onaudioprocess lines 346-355, encode lines 90-97)

```
const inputData = e.inputBuffer.getChannelData(0);
const int16 = new Int16Array(inputData.length);
for (let i = 0; i < inputData.length; i++) int16[i] = inputData[i] * 32768;
const pcmBlob: Blob = {
  data: encode(new Uint8Array(int16.buffer)),
  mimeType: 'audio/pcm;rate=16000',
};
```

Samples are embedded as rationals: every IEEE float is a rational, the
multiplication by the power of two 32768 is exact on floats, and
storing into an `Int16Array` performs the ECMAScript ToInt16 conversion
(truncate toward zero, reduce mod 2^16 into the signed range; the NaN
and infinity cases have no counterpart on ℚ).  `encode` builds a binary
string from the buffer's bytes — little-endian on every supported
platform — and `btoa` base64-encodes it; the composition is embedded
directly as a byte-level base64 encoder. -/

/-- Truncation toward zero, the ToIntegerOrInfinity step of ToInt16. -/
def jsTrunc (x : ℚ) : ℤ := if 0 ≤ x then ⌊x⌋ else -⌊-x⌋

/-- ECMAScript ToInt16, the conversion performed by an `Int16Array`
store: truncate toward zero, take the nonnegative residue mod 2^16,
reinterpret into [-32768, 32767]. -/
def toInt16 (x : ℚ) : ℤ :=
  if 32768 ≤ jsTrunc x % 65536 then jsTrunc x % 65536 - 65536
  else jsTrunc x % 65536

/-- Reduction mod 2^16 into the signed range [-32768, 32767], as one
shifted-mod formula. -/
def signedMod16 (i : ℤ) : ℤ := (i + 32768) % 65536 - 32768

/-- Underlying bytes of an `Int16Array`, little-endian. -/
def bytesOfInt16LE (vs : List ℤ) : List ℕ :=
  vs.flatMap fun v => [(v % 65536).toNat % 256, (v % 65536).toNat / 256]

/-- The base64 alphabet. -/
def b64Alphabet : List Char :=
  "ABCDEFGHIJKLMNOPQRSTUVWXYZabcdefghijklmnopqrstuvwxyz0123456789+/".data

/-- Sextet to base64 character. -/
def b64Char (n : ℕ) : Char := b64Alphabet.getD n '='

/-- Base64 of a byte list: the component's `encode` (binary string of
the bytes, then `btoa`), embedded at byte level with standard `=`
padding. -/
def base64Encode : List ℕ → String
  | [] => ""
  | [a] => String.mk [b64Char (a / 4), b64Char (a % 4 * 16), '=', '=']
  | [a, b] =>
    String.mk [b64Char (a / 4), b64Char (a % 4 * 16 + b / 16),
      b64Char (b % 16 * 4), '=']
  | a :: b :: c :: rest =>
    String.mk [b64Char (a / 4), b64Char (a % 4 * 16 + b / 16),
      b64Char (b % 16 * 4 + c / 64), b64Char (c % 64)] ++ base64Encode rest

/-- The realtime media blob sent per captured frame. -/
structure PcmBlob where
  data : String
  mimeType : String
  deriving DecidableEq

/-- `onaudioprocess` on one captured frame: convert every sample with
`inputData[i] * 32768` stored into an `Int16Array`, base64-encode the
buffer bytes, tag with the fixed MIME type. -/
def micFrame (samples : List ℚ) : PcmBlob :=
  { data := base64Encode (bytesOfInt16LE (samples.map fun s => toInt16 (s * 32768))),
    mimeType := "audio/pcm;rate=16000" }

lemma toInt16_eq_signedMod16 (x : ℚ) : toInt16 x = signedMod16 (jsTrunc x) := by
  unfold toInt16 signedMod16
  split <;> omega

lemma toInt16_range (x : ℚ) : -32768 ≤ toInt16 x ∧ toInt16 x ≤ 32767 := by
  unfold toInt16
  split <;> omega

lemma jsTrunc_bounds {s : ℚ} (h1 : -1 ≤ s) (h2 : s ≤ 1) :
    -32768 ≤ jsTrunc (s * 32768) ∧ jsTrunc (s * 32768) ≤ 32768 := by
  unfold jsTrunc
  split
  · constructor
    · have : (0 : ℤ) ≤ ⌊s * 32768⌋ := Int.floor_nonneg.mpr (by assumption)
      omega
    · have : ⌊s * 32768⌋ ≤ ⌊(32768 : ℚ)⌋ := Int.floor_le_floor (by nlinarith)
      simpa using this
  · constructor
    · have : ⌊-(s * 32768)⌋ ≤ ⌊(32768 : ℚ)⌋ := Int.floor_le_floor (by nlinarith)
      have h32 : ⌊(32768 : ℚ)⌋ = 32768 := by norm_num
      omega
    · have : (0 : ℤ) ≤ ⌊-(s * 32768)⌋ := Int.floor_nonneg.mpr (by linarith)
      omega

/-- **C9.** For every captured input frame whose floating-point samples
lie in [-1, 1], each sample is converted to a signed 16-bit PCM value —
the code computes `sample * 32768` stored into an `Int16Array`, i.e.
the truncation reduced mod 2^16 into [-32768, 32767], the truncated
value itself lying in [-32768, 32768] — the resulting byte buffer is
base64-encoded, and the frame is sent tagged with the MIME type
`audio/pcm;rate=16000` (16 kHz, mono). -/
theorem mic_frame_pcm16 (samples : List ℚ)
    (h : ∀ s ∈ samples, -1 ≤ s ∧ s ≤ 1) :
    (∀ s ∈ samples,
        toInt16 (s * 32768) = signedMod16 (jsTrunc (s * 32768))
        ∧ -32768 ≤ toInt16 (s * 32768) ∧ toInt16 (s * 32768) ≤ 32767
        ∧ -32768 ≤ jsTrunc (s * 32768) ∧ jsTrunc (s * 32768) ≤ 32768)
    ∧ (micFrame samples).data
        = base64Encode (bytesOfInt16LE (samples.map fun s => toInt16 (s * 32768)))
    ∧ (micFrame samples).mimeType = "audio/pcm;rate=16000" := by
  refine ⟨?_, rfl, rfl⟩
  intro s hs
  obtain ⟨hb1, hb2⟩ := jsTrunc_bounds (h s hs).1 (h s hs).2
  exact ⟨toInt16_eq_signedMod16 _, (toInt16_range _).1, (toInt16_range _).2, hb1, hb2⟩

/-- **C9 witness**: `mic_frame_pcm16` at a concrete frame including the
extreme samples 1 (which wraps to -32768) and -1. -/
theorem mic_frame_pcm16_witness :
    (∀ s ∈ ([1, -1, 0] : List ℚ), -1 ≤ s ∧ s ≤ 1)
    ∧ (micFrame [1, -1, 0]).mimeType = "audio/pcm;rate=16000" := by
  refine ⟨by decide, ?_⟩
  exact (mic_frame_pcm16 [1, -1, 0] (by decide)).2.2

end ZenFlow
